import Mathlib

/-!
Shallow embedding of the DIMO-Network/enclave-bridge repository, covering the
handshake acceptor (cmd/enclave-bridge/bridge.go, and the earlier bridge main
revision whose `completeHandshake` checks the enclave-reported error field),
the client and server tunnels (pkg/tunnel and pkg/enclave revisions), the
watchdog (pkg/watchdog), and environment serialization (pkg/config).

Go byte slices are modelled as `List Nat`; Go strings as `List Char` where
character-level structure matters and as `String` otherwise.  A network
connection is modelled by the sequence of byte segments its successive
`Read` calls return; writing is modelled by recording the written payloads.
Fallible Go functions become `Except`/`Option` values.
-/

set_option autoImplicit false

namespace EnclaveBridge

/-- A Go byte, as a natural number (all source values are literals below 256). -/
abbrev Byte := Nat

/-- The variable `ACK` of the pkg/enclave helper file of the current
revision, declared as the byte 0x06 followed by LF: the two-byte ACK token. -/
def ACK : List Byte := [0x06, 0x0A]

/-- The constant `ACK = 0x06` from the pkg/enclave revision in
src/pkg/enclave/enclave_setup.go: a single-byte ACK constant. -/
def ackConstByte : Byte := 0x06

/-! ### ACK write sites (claim C4)

Each definition below is the exact payload handed to the corresponding
`Write` call in the source. -/

/-- Handshake step 1: the enclave handshake dialer performs
`e.conn.Write(enclave.ACK)` (handshake package, `setupConnection`). -/
def handshakeStep1AckWrite : List Byte := ACK

/-- Handshake step 4: the bridge's ready function performs
`enclave.WriteWithContext(ctx, conn, enclave.ACK)`
(cmd/enclave-bridge/bridge.go, `completeHandshake`). -/
def bridgeReadyAckWrite : List Byte := ACK

/-- Client-tunnel target-reachable signal in the tunnel package:
`vsockConn.Write(enclave.ACK)` (pkg/tunnel `ClientTunnel.HandleConn`). -/
def tunnelClientAckWrite : List Byte := ACK

/-- Client-tunnel target-reachable signal in the pkg/enclave revision:
`vsockConn.Write([]byte{ACK})` with `const ACK = 0x06`
(src/pkg/enclave/client_tunnel.go, `ClientTunnel.HandleConn`). -/
def enclaveClientAckWrite : List Byte := [ackConstByte]

/-! ### Handshake acceptor (claim C1)

`CreateBridge` in cmd/enclave-bridge/bridge.go, after the accept loop has
produced a connection: it reads one LF-delimited frame with a 10 second
deadline; on a read error or a frame different from `ACK` it closes the
listener and the connection and returns an error; otherwise it runs
`completeHandshake` and on success stores the still-open listener in the
returned bridge. -/

/-- Result of `enclave.ReadBytesWithContext(readCtx, conn, '\n')`. -/
inductive ReadResult where
  | ok (frame : List Byte)
  | err (msg : String)
  deriving DecidableEq

/-- What `CreateBridge` did with its two resources, and what it returned. -/
structure CreateBridgeOutcome where
  listenerClosed : Bool
  connClosed : Bool
  result : Except String Unit

/-- The tail of `CreateBridge` (bridge.go lines 69-93), as a function of the
first framed read and of whether `completeHandshake` succeeds.  On success
the returned bridge keeps both the listener (as `bridge.listener`) and the
connection (closed later by `readyFunc`) open. -/
def createBridgeFirstFrame (read : ReadResult) (handshakeOk : Bool) :
    CreateBridgeOutcome :=
  match read with
  | .err msg => ⟨true, true, .error ("failed to read ACK: " ++ msg)⟩
  | .ok frame =>
    if frame = ACK then
      if handshakeOk then ⟨false, false, .ok ()⟩
      else ⟨true, true, .error "failed to complete handshake"⟩
    else ⟨true, true, .error "first message from enclave was not an ACK"⟩

/-! ### Bridge settings and the error-checking handshake (claim C2)

The bridge-main revision (src/unnamed/part_000) parses the enclave's
`BridgeSettings` and aborts the handshake when its `Error` field is
non-empty; tunnels are created only afterwards, by `runBridge`. -/

/-- Structure `config.ServerSettings`. -/
structure ServerSettings where
  enclaveCID : Nat
  enclaveListenPort : Nat
  bridgeTCPPort : Nat
  deriving DecidableEq

/-- Structure `config.ClientSettings` (`RequestTimeout` in nanoseconds). -/
structure ClientSettings where
  enclaveDialPort : Nat
  requestTimeout : Nat
  deriving DecidableEq

/-- Structure `config.LoggerSettings` of the revision used by part_000. -/
structure LoggerSettings where
  level : String
  enclaveDialPort : Nat
  deriving DecidableEq

/-- Structure `config.BridgeSettings` of the revision used by the part_000 bridge main
and by pkg/enclave `sendError`, which carries an `Error` string field
(set by the enclave to abort the handshake). -/
structure BridgeSettingsE where
  appName : String
  logger : LoggerSettings
  servers : List ServerSettings
  clients : List ClientSettings
  error : String
  deriving DecidableEq

/-- Errors `completeHandshake` can return. -/
inductive HandshakeError where
  | serializeEnvFailed
  | writeEnvFailed
  | readConfigFailed
  | unmarshalFailed
  | enclaveReportedError (msg : String)
  deriving DecidableEq

/-- Function `completeHandshake` of the part_000 bridge main: serialize and send the
environment, read and unmarshal the settings line, and reject settings whose
`Error` field is non-empty.  The fallible I/O steps are inputs: `envOk` is
whether `SerializeEnvironment` succeeded, `writeOk` whether the environment
write succeeded, and `parsed` the combined result of the framed read and of
`json.Unmarshal`. -/
def completeHandshake (envOk writeOk : Bool)
    (parsed : Except Unit BridgeSettingsE) : Except HandshakeError BridgeSettingsE :=
  if !envOk then .error .serializeEnvFailed
  else if !writeOk then .error .writeEnvFailed
  else
    match parsed with
    | .error _ => .error .unmarshalFailed
    | .ok settings =>
      if settings.error ≠ "" then .error (.enclaveReportedError settings.error)
      else .ok settings

/-- A tunnel resource created by `runBridge`. -/
inductive TunnelSpec where
  | stdout (enclaveDialPort : Nat)
  | server (s : ServerSettings)
  | client (c : ClientSettings)
  deriving DecidableEq

/-- The tunnels `runBridge` (part_000) creates from a settings value that
reached it: the stdout tunnel, one server tunnel per `Servers` entry and one
client tunnel per `Clients` entry. -/
def runBridgeTunnels (settings : BridgeSettingsE) : List TunnelSpec :=
  TunnelSpec.stdout settings.logger.enclaveDialPort ::
    (settings.servers.map TunnelSpec.server ++ settings.clients.map TunnelSpec.client)

/-- Function `handleInit` (part_000): run `completeHandshake`, and only on success run
the bridge.  The returned list is every tunnel the call created. -/
def handleInitTunnels (envOk writeOk : Bool)
    (parsed : Except Unit BridgeSettingsE) : List TunnelSpec :=
  match completeHandshake envOk writeOk parsed with
  | .error _ => []
  | .ok settings => runBridgeTunnels settings

/-! ### Watchdog (claims C6, C7, C8)

pkg/watchdog: `New` validates the settings; `StartServerSide` runs
`startTicker` (a select over context cancellation, the ticker and the error
channel) while `HandleConn` reads LF-delimited heartbeat frames, resetting
the ticker on a matching UUID and pushing `ErrEnclaveIDMismatch` otherwise.
The serialized run below feeds `startTicker` the events of one connection in
order; each event carries the time elapsed since the previous ticker reset
(the ticker fires first when that gap reaches the interval). -/

/-- A UUID as its 16 raw bytes (`uuid.UUID` of gofrs/uuid). -/
abbrev UUID := List Byte

/-- The value `uuid.Nil`: the all-zero UUID. -/
def uuidNil : UUID := List.replicate 16 0

/-- Function `uuid.FromBytesOrNil`: the bytes themselves when they are exactly 16
bytes long, `uuid.Nil` otherwise. -/
def fromBytesOrNil (b : List Byte) : UUID :=
  if b.length = 16 then b else uuidNil

/-- Structure `config.WatchdogSettings`. -/
structure WatchdogSettings where
  enclaveID : UUID
  interval : Nat
  deriving DecidableEq

/-- The watchdog state retained from the settings (the ticker and error
channel are runtime resources represented by the run function below). -/
structure Watchdog where
  enclaveID : UUID
  interval : Nat
  deriving DecidableEq

/-- The watchdog error values (`WatchdogError` constants, with the
got/expected pair carried by the mismatch error). -/
inductive WatchdogError where
  | enclaveIDRequired
  | enclaveHeartbeatTimeout
  | enclaveIDMismatch (got expected : UUID)
  deriving DecidableEq

/-- Function `watchdog.New`: reject a nil enclave ID, otherwise build the watchdog. -/
def Watchdog.New (settings : WatchdogSettings) : Except WatchdogError Watchdog :=
  if settings.enclaveID = uuidNil then .error .enclaveIDRequired
  else .ok ⟨settings.enclaveID, settings.interval⟩

/-- The 17-byte heartbeat frame `append(w.enclaveID.Bytes(), '\n')` sent by
`Heartbeat` every `interval/2` and parsed by `HandleConn`. -/
def heartbeatFrame (id : UUID) : List Byte := id ++ [0x0A]

/-- One serialized run of the watchdog server over the events of a heartbeat
connection.  Each event is a frame (the bytes of one LF-delimited read,
delimiter included) tagged with the time since the previous ticker reset.
Mirroring `startTicker` and `HandleConn`: if the interval elapses before the
frame arrives the ticker fires and the run returns the timeout error; else
the frame's bytes before the LF are decoded with `uuid.FromBytesOrNil` and
compared with the expected ID, a mismatch being returned and a match
resetting the ticker; a run whose events are exhausted (connection still
quiet, or context cancelled) has returned nothing. -/
def Watchdog.run (w : Watchdog) : List (Nat × List Byte) → Option WatchdogError
  | [] => none
  | (gap, frame) :: rest =>
    if w.interval ≤ gap then some .enclaveHeartbeatTimeout
    else if fromBytesOrNil frame.dropLast ≠ w.enclaveID then
      some (.enclaveIDMismatch (fromBytesOrNil frame.dropLast) w.enclaveID)
    else w.run rest

/-- Accumulator form of the heartbeat reader: `HandleConn` calls
`enclave.ReadBytesWithContext(ctx, conn, '\n')` in a loop, and each call
(`bufio.ReadBytes`) returns the bytes up to and including the next LF of
the wire stream.  `cur` holds the bytes of the frame under construction in
reverse; bytes after the last LF stay pending in a read that has not
returned. -/
def lfReadsAux : List Byte → List Byte → List (List Byte)
  | _, [] => []
  | cur, b :: bs =>
    if b = 0x0A then (cur.reverse ++ [0x0A]) :: lfReadsAux [] bs
    else lfReadsAux (b :: cur) bs

/-- The sequence of LF-delimited reads the watchdog's frame reader performs
on a wire byte stream. -/
def lfReads (wire : List Byte) : List (List Byte) := lfReadsAux [] wire

/-- The watchdog server run over the raw bytes a heartbeat peer put on the
wire: the reader splits the stream at every LF, and each resulting read
reaches the run as one event, `gap` being the time since the previous
ticker reset when it arrives. -/
def Watchdog.runWire (w : Watchdog) (gap : Nat) (wire : List Byte) :
    Option WatchdogError :=
  w.run ((lfReads wire).map (fun frame => (gap, frame)))

/-! ### Byte streams and splicing (claims C3, C5, C9)

A connection's incoming byte stream is the list of segments its successive
`Read` calls return (stream semantics fix the concatenation, not the
boundaries).  `io.Copy`/`io.CopyBuffer` forward every segment they read, so
a copy from the raw connection delivers the concatenation of the segments
that are still unread. -/

/-- Model of `io.Copy` and `io.CopyBuffer` from a raw connection: read segments until EOF
and forward each one (the 1 KiB copy buffer bounds a single read, which
segment granularity already models). -/
def ioCopy : List (List Byte) → List Byte
  | [] => []
  | seg :: rest => seg ++ ioCopy rest

/-- Split a segment at the first occurrence of the delimiter: the bytes
before it and the bytes after it, or `none` when it is absent. -/
def splitAtDelim (delim : Byte) : List Byte → Option (List Byte × List Byte)
  | [] => none
  | b :: bs =>
    if b = delim then some ([], bs)
    else
      match splitAtDelim delim bs with
      | none => none
      | some (front, back) => some (b :: front, back)

/-- Model of `bufio.Reader.ReadBytes(delim)` over a segment stream: fill from the
underlying reader one segment at a time until a fill contains the delimiter.
Returns the line (delimiter included), the residue of the final segment that
remains in the bufio buffer, and the segments never read.  `none` models the
error return when the stream ends first. -/
def bufioReadBytes (delim : Byte) :
    List (List Byte) → Option (List Byte × List Byte × List (List Byte))
  | [] => none
  | seg :: rest =>
    match splitAtDelim delim seg with
    | some (front, back) => some (front ++ [delim], back, rest)
    | none =>
      match bufioReadBytes delim rest with
      | none => none
      | some (line, residue, unread) => some (seg ++ line, residue, unread)

/-- Observable outcome of `ClientTunnel.HandleConn` on one accepted vsock
connection: what was delivered to each side and how the handles ended. -/
structure ClientConnResult where
  sentToTarget : List Byte
  sentToVsock : List Byte
  vsockClosed : Bool
  targetClosed : Bool
  dialSucceeded : Bool
  loggedError : Bool

/-- Function `ClientTunnel.HandleConn` of the tunnel package: read the first
LF-terminated line through a `bufio.Reader` wrapped around the vsock
connection, strip the LF, dial the named target over TCP (modelled by
`dial`, which maps a target address to the dialed connection's segment
stream, or `none` on failure), write the ACK back on the vsock connection
and splice.  Both splice directions copy from the raw connections, so the
vsock-to-target direction forwards only the segments the bufio reader never
consumed: the residue held in its buffer is not forwarded. -/
def clientHandleConn (dial : List Byte → Option (List (List Byte)))
    (vsockSegs : List (List Byte)) : ClientConnResult :=
  match bufioReadBytes 0x0A vsockSegs with
  | none => ⟨[], [], true, false, false, true⟩
  | some (targetLine, _residue, unread) =>
    match dial targetLine.dropLast with
    | none => ⟨[], [], true, false, false, true⟩
    | some targetSegs =>
      ⟨ioCopy unread, ACK ++ ioCopy targetSegs, true, true, true, false⟩

/-- Observable outcome of `ServerTunnel.HandleConn` on one accepted TCP
connection. -/
structure ServerConnResult where
  sentToVsock : List Byte
  sentToTCP : List Byte
  loggedDialError : Bool

/-- The data path of `ServerTunnel.HandleConn` of the tunnel package: dial
vsock, and on success splice the raw TCP and vsock connections in both
directions. -/
def serverHandleConn (dialOk : Bool)
    (tcpSegs vsockSegs : List (List Byte)) : ServerConnResult :=
  if dialOk then ⟨ioCopy tcpSegs, ioCopy vsockSegs, false⟩
  else ⟨[], [], true⟩

/-- The resource actions a splice task performs, in order. -/
inductive SpliceAction where
  | dialVsock
  | copyTCPToVsock
  | copyVsockToTCP
  | logDialError
  | closeTCP
  | closeVsock
  deriving DecidableEq, BEq

/-- The action trace of `ServerTunnel.HandleConn` (tunnel package): a single
`defer conn.Close()` guards the accepted TCP connection; the dialed vsock
connection has no corresponding close on any path.  With a successful dial
the two copy goroutines run and the deferred close fires on return; with a
failed dial the function logs and returns through the same defer. -/
def serverHandleConnTrace (dialOk : Bool) : List SpliceAction :=
  if dialOk then
    [.dialVsock, .copyTCPToVsock, .copyVsockToTCP, .closeTCP]
  else
    [.dialVsock, .logDialError, .closeTCP]

/-- The action trace of `ClientTunnel.HandleConn` (tunnel package) after a
successful target-line read: `defer vsockConn.Close()` at entry and
`defer targetConn.Close()` after a successful dial close both handles once
on every exit path. -/
def clientHandleConnTrace (dialOk : Bool) : List SpliceAction :=
  if dialOk then
    [.dialVsock, .copyVsockToTCP, .copyTCPToVsock, .closeTCP, .closeVsock]
  else
    [.dialVsock, .logDialError, .closeVsock]

/-! ### Environment serialization (claim C10)

`config.SerializeEnvironment` compiles the optional exclude pattern, walks
`os.Environ()` splitting each entry at its first `=`, skips entries whose
name the compiled pattern matches, and marshals the resulting map.  The Go
regexp engine is external to this repository; it enters the model as the
`compile` oracle, which returns the pattern's match predicate or `none`
when `regexp.Compile` fails.  The Go map (and the JSON object `json.Marshal`
derives from it, which never fails for a `map[string]string`) is modelled as
a partial function from names to values. -/

/-- A Go `map[string]string`, as a partial function on names. -/
abbrev EnvMap := List Char → Option (List Char)

/-- The empty map. -/
def emptyEnvMap : EnvMap := fun _ => none

/-- Go map assignment `envMap[key] = value`. -/
def envInsert (m : EnvMap) (key value : List Char) : EnvMap :=
  fun q => if q = key then some value else m q

/-- Model of `strings.SplitN(entry, "=", 2)`: the name before the first `=` and the
remainder after it; `none` models the one-part result (no `=`), which the
source skips as an invalid entry. -/
def splitN2Eq : List Char → Option (List Char × List Char)
  | [] => none
  | c :: cs =>
    if c = '=' then some ([], cs)
    else
      match splitN2Eq cs with
      | none => none
      | some (name, value) => some (c :: name, value)

/-- One iteration of the `os.Environ()` loop: split the entry, skip it when
it has no `=` or when the matcher (the compiled exclude regex, absent when
no pattern was provided) matches the name, otherwise assign into the map. -/
def addEnvEntry (matcher : Option (List Char → Bool)) (m : EnvMap)
    (entry : List Char) : EnvMap :=
  match splitN2Eq entry with
  | none => m
  | some (key, value) =>
    match matcher with
    | some f => if f key then m else envInsert m key value
    | none => envInsert m key value

/-- The whole `os.Environ()` loop. -/
def buildEnvMap (matcher : Option (List Char → Bool))
    (environ : List (List Char)) : EnvMap :=
  environ.foldl (addEnvEntry matcher) emptyEnvMap

/-- Function `config.SerializeEnvironment`: with a non-empty pattern, compile it and
fail on a compile error; filter the process environment with the compiled
matcher, or with none when the pattern is empty. -/
def serializeEnvironment (compile : List Char → Option (List Char → Bool))
    (excludePattern : List Char) (environ : List (List Char)) :
    Except String EnvMap :=
  if excludePattern ≠ [] then
    match compile excludePattern with
    | none => .error "invalid exclude pattern"
    | some f => .ok (buildEnvMap (some f) environ)
  else .ok (buildEnvMap none environ)

/-- The `(name, value)` pairs the loop considers: each entry that splits at
an `=`. -/
def parsedEntries (environ : List (List Char)) : List (List Char × List Char) :=
  environ.filterMap splitN2Eq

/-- Whether the (optional) matcher excludes a name; no pattern excludes
nothing. -/
def matchedBy (matcher : Option (List Char → Bool)) (key : List Char) : Bool :=
  match matcher with
  | none => false
  | some f => f key

/-! ## Theorems -/

/-- C1, counterexample: on a first frame `"HI\n"` (bytes 72 73 10), the claim
requires the bridge to discard only the connection and keep listening, but
`CreateBridge` closes the init-port listener as well and returns an error
instead of a bridge — the claim as stated is false at this input. -/
theorem c1_counterexample :
    (createBridgeFirstFrame (ReadResult.ok [72, 73, 10]) true).listenerClosed = true ∧
    ¬ (createBridgeFirstFrame (ReadResult.ok [72, 73, 10]) true).listenerClosed = false ∧
    (createBridgeFirstFrame (ReadResult.ok [72, 73, 10]) true).connClosed = true := by
  refine ⟨rfl, ?_, rfl⟩
  intro h
  simp [createBridgeFirstFrame, ACK] at h

/-- C1, amended: whenever the first framed read from a newly accepted
init-port connection is not exactly the ACK token, `CreateBridge` closes
both that connection and the init-port listener and returns an error; it
does not keep listening, and a subsequent valid handshake succeeds only
through a fresh `CreateBridge` call, whose newly bound listener is kept
open when the first frame is the ACK and the handshake completes. -/
theorem c1_amended (frame : List Byte) (handshakeOk : Bool) (h : frame ≠ ACK) :
    (createBridgeFirstFrame (ReadResult.ok frame) handshakeOk).listenerClosed = true ∧
    (createBridgeFirstFrame (ReadResult.ok frame) handshakeOk).connClosed = true ∧
    (∀ u, (createBridgeFirstFrame (ReadResult.ok frame) handshakeOk).result ≠ .ok u) ∧
    (createBridgeFirstFrame (ReadResult.ok ACK) true).listenerClosed = false ∧
    (createBridgeFirstFrame (ReadResult.ok ACK) true).result = .ok () := by
  simp [createBridgeFirstFrame, h]

/-- C1, witness for the amended theorem at the frame `"HI\n"`. -/
theorem c1_amended_witness :
    (createBridgeFirstFrame (ReadResult.ok [72, 73, 10]) true).listenerClosed = true ∧
    (createBridgeFirstFrame (ReadResult.ok ACK) true).result = .ok () := by
  have h := c1_amended [72, 73, 10] true (by decide)
  exact ⟨h.1, h.2.2.2.2⟩

/-- C2: a `BridgeSettings` whose `Error` field is non-empty makes
`completeHandshake` fail — with the enclave-reported error when the earlier
handshake steps succeeded — and `handleInit` therefore creates no tunnel
from those settings. -/
theorem c2_error_settings_abort (envOk writeOk : Bool) (s : BridgeSettingsE)
    (h : s.error ≠ "") :
    (∃ e, completeHandshake envOk writeOk (.ok s) = .error e) ∧
    (envOk = true → writeOk = true →
      completeHandshake envOk writeOk (.ok s) =
        .error (.enclaveReportedError s.error)) ∧
    handleInitTunnels envOk writeOk (.ok s) = [] := by
  cases envOk <;> cases writeOk <;>
    simp [completeHandshake, handleInitTunnels, h]

/-- C2, witness: settings reporting the error `"x"` produce the
enclave-reported handshake error and no tunnels. -/
theorem c2_error_settings_abort_witness :
    completeHandshake true true (.ok ⟨"app", ⟨"info", 4999⟩, [], [], "x"⟩) =
      .error (.enclaveReportedError "x") ∧
    handleInitTunnels true true (.ok ⟨"app", ⟨"info", 4999⟩, [], [], "x"⟩) = [] := by
  have h := c2_error_settings_abort true true ⟨"app", ⟨"info", 4999⟩, [], [], "x"⟩
    (by decide)
  exact ⟨h.2.1 rfl rfl, h.2.2⟩

/-- C4, counterexample: the target-reachable signal of the pkg/enclave
client-tunnel revision is the single byte 0x06, not the two-byte ACK
token, so not every ACK send on the wire is the sequence 0x06 0x0A. -/
theorem c4_counterexample :
    enclaveClientAckWrite ≠ ACK ∧ enclaveClientAckWrite = [0x06] := by
  constructor <;> decide

/-- C4, amended: the handshake step-1 send, the handshake step-4 send and
the tunnel-package client-tunnel target-reachable signal are each exactly
the two bytes 0x06 0x0A; the pkg/enclave client-tunnel revision instead
sends the single byte 0x06 as its target-reachable signal. -/
theorem c4_amended :
    handshakeStep1AckWrite = [0x06, 0x0A] ∧
    bridgeReadyAckWrite = [0x06, 0x0A] ∧
    tunnelClientAckWrite = [0x06, 0x0A] ∧
    ACK = [0x06, 0x0A] ∧
    enclaveClientAckWrite = [0x06] := by
  refine ⟨rfl, rfl, rfl, rfl, rfl⟩

/-- C5: on the successful-dial path of `ServerTunnel.HandleConn` the task
closes the accepted TCP connection exactly once but never closes the vsock
connection it dialed, contradicting the claim that every splice task closes
both of its handles exactly once; the client-tunnel splice task does close
both exactly once. -/
theorem c5_server_tunnel_vsock_never_closed :
    (serverHandleConnTrace true).count SpliceAction.closeVsock = 0 ∧
    (serverHandleConnTrace true).count SpliceAction.closeTCP = 1 ∧
    (serverHandleConnTrace false).count SpliceAction.closeVsock = 0 ∧
    (clientHandleConnTrace true).count SpliceAction.closeVsock = 1 ∧
    (clientHandleConnTrace true).count SpliceAction.closeTCP = 1 := by
  refine ⟨rfl, rfl, rfl, rfl, rfl⟩

/-- C7: `watchdog.New` returns `ErrEnclaveIDRequired` exactly when the
settings carry the nil UUID, and for any other enclave ID it returns the
watchdog built from the settings. -/
theorem c7_new_iff (s : WatchdogSettings) :
    (Watchdog.New s = .error .enclaveIDRequired ↔ s.enclaveID = uuidNil) ∧
    (s.enclaveID ≠ uuidNil → Watchdog.New s = .ok ⟨s.enclaveID, s.interval⟩) := by
  unfold Watchdog.New
  by_cases h : s.enclaveID = uuidNil <;> simp [h]

/-- C7, witness: nil-UUID settings are rejected and an all-ones UUID is
accepted. -/
theorem c7_new_iff_witness :
    Watchdog.New ⟨uuidNil, 30⟩ = .error .enclaveIDRequired ∧
    Watchdog.New ⟨List.replicate 16 1, 30⟩ = .ok ⟨List.replicate 16 1, 30⟩ := by
  exact ⟨(c7_new_iff ⟨uuidNil, 30⟩).1.mpr rfl,
    (c7_new_iff ⟨List.replicate 16 1, 30⟩).2 (by decide)⟩

/-- Dropping the trailing LF of a heartbeat frame recovers the raw bytes. -/
theorem dropLast_append_singleton (l : List Byte) (a : Byte) :
    (l ++ [a]).dropLast = l := by
  induction l with
  | nil => rfl
  | cons b bs ih =>
    cases bs with
    | nil => rfl
    | cons c cs => simpa using ih

/-- C6: whenever every heartbeat event of a connection arrives before the
ticker interval elapses and some frame's UUID differs from the expected
enclave ID, the watchdog run returns the enclave-ID-mismatch error. -/
theorem c6_mismatch_returns_error (w : Watchdog) (events : List (Nat × List Byte))
    (hgap : ∀ e ∈ events, e.1 < w.interval)
    (hbad : ∃ e ∈ events, fromBytesOrNil e.2.dropLast ≠ w.enclaveID) :
    ∃ got, w.run events = some (.enclaveIDMismatch got w.enclaveID) := by
  induction events with
  | nil => simp at hbad
  | cons e rest ih =>
    obtain ⟨gap, frame⟩ := e
    have hg : gap < w.interval := hgap _ (List.mem_cons_self _ _)
    by_cases hmismatch : fromBytesOrNil frame.dropLast ≠ w.enclaveID
    · exact ⟨fromBytesOrNil frame.dropLast,
        by simp [Watchdog.run, Nat.not_le.mpr hg, hmismatch]⟩
    · push_neg at hmismatch
      have hbadRest : ∃ e ∈ rest, fromBytesOrNil e.2.dropLast ≠ w.enclaveID := by
        obtain ⟨e2, he2, hne⟩ := hbad
        rcases List.mem_cons.mp he2 with h | hmem
        · exact absurd (h ▸ hmismatch) hne
        · exact ⟨e2, hmem, hne⟩
      obtain ⟨got, hrun⟩ := ih (fun e he => hgap _ (List.mem_cons_of_mem _ he)) hbadRest
      refine ⟨got, ?_⟩
      simpa [Watchdog.run, Nat.not_le.mpr hg, hmismatch] using hrun

/-- C6, witness: expecting the all-ones UUID, a matching heartbeat followed
by an all-twos heartbeat makes the run return the mismatch error. -/
theorem c6_mismatch_returns_error_witness :
    ∃ got, Watchdog.run ⟨List.replicate 16 1, 10⟩
      [(1, heartbeatFrame (List.replicate 16 1)),
       (2, heartbeatFrame (List.replicate 16 2))] =
      some (.enclaveIDMismatch got (List.replicate 16 1)) := by
  exact c6_mismatch_returns_error ⟨List.replicate 16 1, 10⟩ _
    (by decide)
    ⟨(2, heartbeatFrame (List.replicate 16 2)), by decide, by decide⟩

/-- Reading a stream that starts with LF-free bytes, an LF and a remainder
yields those bytes (after the pending ones) as one frame and continues on
the remainder. -/
theorem lfReadsAux_frame (id : List Byte) (hnolf : (0x0A : Byte) ∉ id) :
    ∀ (cur rest : List Byte),
    lfReadsAux cur (id ++ 0x0A :: rest) =
      (cur.reverse ++ id ++ [0x0A]) :: lfReadsAux [] rest := by
  induction id with
  | nil =>
    intro cur rest
    simp [lfReadsAux]
  | cons a as ih =>
    intro cur rest
    have ha : a ≠ 0x0A := fun h => hnolf (h ▸ List.mem_cons_self a as)
    have has : (0x0A : Byte) ∉ as := fun h => hnolf (List.mem_cons_of_mem a h)
    rw [List.cons_append]
    show lfReadsAux cur (a :: (as ++ 0x0A :: rest)) = _
    rw [lfReadsAux, if_neg ha, ih has (a :: cur) rest]
    simp

/-- The reader recovers exactly the heartbeat frames from the wire bytes of
repeated heartbeats of an LF-free enclave ID. -/
theorem lfReads_heartbeat_replicate (id : UUID) (hnolf : (0x0A : Byte) ∉ id) :
    ∀ n : Nat,
    lfReads (ioCopy (List.replicate n (heartbeatFrame id))) =
      List.replicate n (heartbeatFrame id) := by
  intro n
  induction n with
  | zero => rfl
  | succ k ih =>
    rw [List.replicate_succ, show ioCopy (heartbeatFrame id :: List.replicate k
      (heartbeatFrame id)) = heartbeatFrame id ++ ioCopy (List.replicate k
      (heartbeatFrame id)) from rfl]
    unfold lfReads
    rw [show heartbeatFrame id ++ ioCopy (List.replicate k (heartbeatFrame id)) =
      id ++ 0x0A :: ioCopy (List.replicate k (heartbeatFrame id)) by
        simp [heartbeatFrame]]
    rw [lfReadsAux_frame id hnolf [] _]
    show (id ++ [(0x0A : Byte)]) ::
        lfReads (ioCopy (List.replicate k (heartbeatFrame id))) =
      heartbeatFrame id :: List.replicate k (heartbeatFrame id)
    rw [ih]
    rfl

/-- A run fed matching heartbeat frames at gaps of `interval/2` returns no
error. -/
theorem run_heartbeat_replicate_none (id : UUID) (interval n : Nat)
    (hlen : id.length = 16) (hpos : 1 ≤ interval) :
    Watchdog.run ⟨id, interval⟩
      (List.replicate n (interval / 2, heartbeatFrame id)) = none := by
  have hdecode : fromBytesOrNil (heartbeatFrame id).dropLast = id := by
    simp [heartbeatFrame, fromBytesOrNil, dropLast_append_singleton, hlen]
  have hlt : interval / 2 < interval := Nat.div_lt_self hpos (by omega)
  induction n with
  | zero => rfl
  | succ k ih =>
    simp [List.replicate_succ, Watchdog.run, Nat.not_le.mpr hlt, hdecode, ih]

/-- C8, counterexample: the claim quantifies over every expected enclave
ID, but for the 16-byte ID beginning with the byte 0x0A (which is not the
nil UUID, so `watchdog.New` accepts it) a peer sending exactly the 17-byte
heartbeat frame at gap `interval/2` makes the watchdog return an error: the
LF-delimited reader splits the frame at the interior LF, the short first
read decodes through `uuid.FromBytesOrNil` to the nil UUID, and the run
returns the enclave-ID-mismatch error — so the claim as stated is false at
this input. -/
theorem c8_counterexample :
    (0x0A :: List.replicate 15 1 : UUID).length = 16 ∧
    (0x0A :: List.replicate 15 1 : UUID) ≠ uuidNil ∧
    Watchdog.runWire ⟨0x0A :: List.replicate 15 1, 10⟩ (10 / 2)
        (ioCopy (List.replicate 1 (heartbeatFrame (0x0A :: List.replicate 15 1))))
      = some (.enclaveIDMismatch uuidNil (0x0A :: List.replicate 15 1)) := by
  refine ⟨by decide, by decide, by decide⟩

/-- C8, amended: for every 16-byte expected enclave ID none of whose raw
bytes is 0x0A, a watchdog whose peer puts the 17-byte heartbeat frame (the
16 raw UUID bytes followed by LF) on the wire every `interval/2` never
returns an error: the reader recovers exactly those frames, each decodes to
the expected ID and resets the ticker rather than being treated as a
mismatch, and the ticker never reaches the interval.  For an expected ID
containing the byte 0x0A the reader splits its heartbeat frames at the
interior LF and the watchdog instead returns the mismatch error. -/
theorem c8_amended (id : UUID) (interval n : Nat)
    (hlen : id.length = 16) (hnolf : (0x0A : Byte) ∉ id) (hpos : 1 ≤ interval) :
    fromBytesOrNil (heartbeatFrame id).dropLast = id ∧
    lfReads (ioCopy (List.replicate n (heartbeatFrame id))) =
      List.replicate n (heartbeatFrame id) ∧
    Watchdog.runWire ⟨id, interval⟩ (interval / 2)
      (ioCopy (List.replicate n (heartbeatFrame id))) = none := by
  refine ⟨?_, lfReads_heartbeat_replicate id hnolf n, ?_⟩
  · simp [heartbeatFrame, fromBytesOrNil, dropLast_append_singleton, hlen]
  · unfold Watchdog.runWire
    rw [lfReads_heartbeat_replicate id hnolf n, List.map_replicate]
    exact run_heartbeat_replicate_none id interval n hlen hpos

/-- C8, witness for the amended theorem: the all-ones UUID contains no LF
byte; with interval 10, two heartbeats on the wire at gap 5 produce no
error. -/
theorem c8_amended_witness :
    Watchdog.runWire ⟨List.replicate 16 1, 10⟩ (10 / 2)
      (ioCopy (List.replicate 2 (heartbeatFrame (List.replicate 16 1)))) = none := by
  exact (c8_amended (List.replicate 16 1) 10 2
    (by decide) (by decide) (by decide)).2.2

/-- C9: on an accepted client-tunnel connection the bridge writes the ACK
back on the vsock connection exactly when the TCP dial of the parsed target
address succeeds — the successful-dial output begins with the ACK and the
ACK is its first write — while on a dial failure (and on a failed
target-line read, where no dial is attempted) it logs, closes the vsock
connection, and writes nothing to it. -/
theorem c9_ack_iff_dial_success (dial : List Byte → Option (List (List Byte)))
    (vsockSegs : List (List Byte)) :
    (bufioReadBytes 0x0A vsockSegs = none →
      (clientHandleConn dial vsockSegs).sentToVsock = [] ∧
      (clientHandleConn dial vsockSegs).vsockClosed = true ∧
      (clientHandleConn dial vsockSegs).dialSucceeded = false) ∧
    (∀ line residue unread,
      bufioReadBytes 0x0A vsockSegs = some (line, residue, unread) →
      (dial line.dropLast = none →
        (clientHandleConn dial vsockSegs).sentToVsock = [] ∧
        (clientHandleConn dial vsockSegs).vsockClosed = true ∧
        (clientHandleConn dial vsockSegs).loggedError = true ∧
        (clientHandleConn dial vsockSegs).dialSucceeded = false) ∧
      (∀ targetSegs, dial line.dropLast = some targetSegs →
        (clientHandleConn dial vsockSegs).sentToVsock = ACK ++ ioCopy targetSegs ∧
        (clientHandleConn dial vsockSegs).sentToVsock.take 2 = ACK ∧
        (clientHandleConn dial vsockSegs).dialSucceeded = true)) := by
  constructor
  · intro hread
    simp [clientHandleConn, hread]
  · intro line residue unread hread
    constructor
    · intro hdial
      simp [clientHandleConn, hread, hdial]
    · intro targetSegs hdial
      refine ⟨?_, ?_, ?_⟩ <;> simp [clientHandleConn, hread, hdial, ACK]

/-- C9, witness: a connection sending the line `"h:1\n"` with a reachable
target gets the ACK as the first bytes back; with an unreachable target it
gets nothing and is closed. -/
theorem c9_ack_iff_dial_success_witness :
    (clientHandleConn (fun _ => some [[90]]) [[104, 58, 49, 10]]).sentToVsock.take 2
      = ACK ∧
    (clientHandleConn (fun _ => none) [[104, 58, 49, 10]]).sentToVsock = [] ∧
    (clientHandleConn (fun _ => none) [[104, 58, 49, 10]]).vsockClosed = true := by
  have h1 := (c9_ack_iff_dial_success (fun _ => some [[90]]) [[104, 58, 49, 10]]).2
    [104, 58, 49, 10] [] [] (by decide)
  have h2 := (c9_ack_iff_dial_success (fun _ => none) [[104, 58, 49, 10]]).2
    [104, 58, 49, 10] [] [] (by decide)
  exact ⟨(h1.2 [[90]] rfl).2.1, (h2.1 rfl).1, (h2.1 rfl).2.1⟩

/-- C3, counterexample: the enclave hands the vsock connection the single
read segment `"h:1\nAB"` — the target line followed immediately by the
two payload bytes 65 66 — and the dial succeeds, yet nothing reaches the
target: the line reader buffered the payload bytes and the splice copies
from the raw connection, so the claimed delivery of the identical bytes
fails at this input. -/
theorem c3_counterexample :
    ioCopy [[104, 58, 49, 10, 65, 66]] = [104, 58, 49, 10] ++ [65, 66] ∧
    (clientHandleConn (fun _ => some []) [[104, 58, 49, 10, 65, 66]]).dialSucceeded
      = true ∧
    (clientHandleConn (fun _ => some []) [[104, 58, 49, 10, 65, 66]]).sentToTarget
      ≠ [65, 66] ∧
    (clientHandleConn (fun _ => some []) [[104, 58, 49, 10, 65, 66]]).sentToTarget
      = [] := by
  refine ⟨rfl, rfl, by decide, rfl⟩

/-- C3, amended: spliced bytes are delivered in order and unmodified in
both directions of a server tunnel and in the target-to-enclave direction
of a client tunnel (after its leading ACK); in the enclave-to-target
direction they are delivered in order and unmodified provided the bytes
after the target line were not coalesced into the line reader's buffer
(residue-free read, as when the enclave writes only after reading the
ACK) — bytes coalesced into the same read as the target line stay in the
discarded buffer and are not delivered. -/
theorem c3_amended :
    (∀ (tcpSegs vsockSegs : List (List Byte)) (payloadA payloadB : List Byte),
      payloadA.length ≤ 65536 → payloadB.length ≤ 65536 →
      ioCopy tcpSegs = payloadA → ioCopy vsockSegs = payloadB →
      (serverHandleConn true tcpSegs vsockSegs).sentToVsock = payloadA ∧
      (serverHandleConn true tcpSegs vsockSegs).sentToTCP = payloadB) ∧
    (∀ (dial : List Byte → Option (List (List Byte)))
       (vsockSegs : List (List Byte)) (line : List Byte)
       (unread targetSegs : List (List Byte)) (payloadC payloadD : List Byte),
      payloadC.length ≤ 65536 → payloadD.length ≤ 65536 →
      bufioReadBytes 0x0A vsockSegs = some (line, [], unread) →
      dial line.dropLast = some targetSegs →
      ioCopy unread = payloadC → ioCopy targetSegs = payloadD →
      (clientHandleConn dial vsockSegs).sentToTarget = payloadC ∧
      (clientHandleConn dial vsockSegs).sentToVsock = ACK ++ payloadD) := by
  constructor
  · intro tcpSegs vsockSegs payloadA payloadB _ _ hA hB
    exact ⟨by simp [serverHandleConn, hA], by simp [serverHandleConn, hB]⟩
  · intro dial vsockSegs line unread targetSegs payloadC payloadD _ _ hread hdial hC hD
    exact ⟨by simp [clientHandleConn, hread, hdial, hC],
      by simp [clientHandleConn, hread, hdial, hD]⟩

/-- C3, witness for the amended theorem: the target line arrives in its own
segment, the payload bytes 65 66 in the next; they reach the target intact,
and the target's byte 90 comes back after the ACK. -/
theorem c3_amended_witness :
    (serverHandleConn true [[1], [2, 3]] [[4]]).sentToVsock = [1, 2, 3] ∧
    (clientHandleConn (fun _ => some [[90]]) [[104, 58, 49, 10], [65, 66]]).sentToTarget
      = [65, 66] ∧
    (clientHandleConn (fun _ => some [[90]]) [[104, 58, 49, 10], [65, 66]]).sentToVsock
      = ACK ++ [90] := by
  have h1 := (c3_amended.1 [[1], [2, 3]] [[4]] [1, 2, 3] [4]
    (by decide) (by decide) rfl rfl).1
  have h2 := c3_amended.2 (fun _ => some [[90]]) [[104, 58, 49, 10], [65, 66]]
    [104, 58, 49, 10] [[65, 66]] [[90]] [65, 66] [90]
    (by decide) (by decide) (by decide) rfl rfl rfl
  exact ⟨h1, h2.1, h2.2⟩

/-- Entries without an `=` contribute nothing to the parsed entries. -/
theorem parsedEntries_cons_none (e : List Char) (rest : List (List Char))
    (h : splitN2Eq e = none) :
    parsedEntries (e :: rest) = parsedEntries rest := by
  simp [parsedEntries, List.filterMap_cons, h]

/-- An entry splitting at an `=` heads the parsed entries. -/
theorem parsedEntries_cons_some (e : List Char) (rest : List (List Char))
    (k v : List Char) (h : splitN2Eq e = some (k, v)) :
    parsedEntries (e :: rest) = (k, v) :: parsedEntries rest := by
  simp [parsedEntries, List.filterMap_cons, h]

/-- A name all of whose occurrences are excluded by the matcher is left at
whatever the accumulating map already said. -/
theorem foldl_addEnvEntry_untouched (matcher : Option (List Char → Bool))
    (environ : List (List Char)) (k : List Char) :
    ∀ acc : EnvMap,
    (∀ v, (k, v) ∈ parsedEntries environ → matchedBy matcher k = true) →
    environ.foldl (addEnvEntry matcher) acc k = acc k := by
  induction environ with
  | nil => intro acc _; rfl
  | cons e rest ih =>
    intro acc h
    rw [List.foldl_cons]
    cases hsplit : splitN2Eq e with
    | none =>
      have hstep : addEnvEntry matcher acc e = acc := by
        simp [addEnvEntry, hsplit]
      rw [hstep]
      refine ih acc (fun v hv => h v ?_)
      rw [parsedEntries_cons_none e rest hsplit]
      exact hv
    | some kv =>
      obtain ⟨k0, v0⟩ := kv
      have htail : ∀ v, (k, v) ∈ parsedEntries rest → matchedBy matcher k = true := by
        intro v hv
        refine h v ?_
        rw [parsedEntries_cons_some e rest k0 v0 hsplit]
        exact List.mem_cons_of_mem _ hv
      rw [ih (addEnvEntry matcher acc e) htail]
      by_cases hk : k = k0
      · subst hk
        have hmatched : matchedBy matcher k = true := by
          refine h v0 ?_
          rw [parsedEntries_cons_some e rest k v0 hsplit]
          exact List.mem_cons_self _ _
        cases matcher with
        | none => simp [matchedBy] at hmatched
        | some f =>
          have hf : f k = true := hmatched
          simp [addEnvEntry, hsplit, hf]
      · cases matcher with
        | none => simp [addEnvEntry, hsplit, envInsert, hk]
        | some f =>
          by_cases hf : f k0
          · simp [addEnvEntry, hsplit, hf]
          · simp [addEnvEntry, hsplit, hf, envInsert, hk]

/-- With unique parsed names, a name the matcher does not exclude ends up
mapped to its value. -/
theorem foldl_addEnvEntry_present (matcher : Option (List Char → Bool))
    (environ : List (List Char)) (k v : List Char) :
    ∀ acc : EnvMap,
    ((parsedEntries environ).map Prod.fst).Nodup →
    (k, v) ∈ parsedEntries environ →
    matchedBy matcher k = false →
    environ.foldl (addEnvEntry matcher) acc k = some v := by
  induction environ with
  | nil =>
    intro acc _ hmem _
    simp [parsedEntries] at hmem
  | cons e rest ih =>
    intro acc hnd hmem hm
    rw [List.foldl_cons]
    cases hsplit : splitN2Eq e with
    | none =>
      rw [parsedEntries_cons_none e rest hsplit] at hmem hnd
      have hstep : addEnvEntry matcher acc e = acc := by
        simp [addEnvEntry, hsplit]
      rw [hstep]
      exact ih acc hnd hmem hm
    | some kv =>
      obtain ⟨k0, v0⟩ := kv
      rw [parsedEntries_cons_some e rest k0 v0 hsplit] at hmem hnd
      rw [List.map_cons, List.nodup_cons] at hnd
      obtain ⟨hnotin, hndrest⟩ := hnd
      rcases List.mem_cons.mp hmem with heq | hmemrest
      · injection heq with h1 h2
        subst h1
        subst h2
        have hstep : addEnvEntry matcher acc e = envInsert acc k v := by
          cases matcher with
          | none => simp [addEnvEntry, hsplit]
          | some f =>
            have hf : f k = false := hm
            simp [addEnvEntry, hsplit, hf]
        rw [hstep]
        have huntouched : ∀ v2, (k, v2) ∈ parsedEntries rest →
            matchedBy matcher k = true := by
          intro v2 hv2
          exact absurd (List.mem_map_of_mem Prod.fst hv2) hnotin
        rw [foldl_addEnvEntry_untouched matcher rest k (envInsert acc k v) huntouched]
        simp [envInsert]
      · exact ih (addEnvEntry matcher acc e) hndrest hmemrest hm

/-- C10: `SerializeEnvironment` fails exactly on a non-empty exclude pattern
the regexp engine rejects; with a compiled matcher it returns the map in
which every environment variable whose name the pattern matches is absent
and (for an environment with unique names) every other variable is present
with its value unchanged; with no pattern provided nothing is excluded. -/
theorem c10_serialize_environment (compile : List Char → Option (List Char → Bool))
    (pat : List Char) (environ : List (List Char)) :
    (pat ≠ [] → compile pat = none →
      serializeEnvironment compile pat environ = .error "invalid exclude pattern") ∧
    (∀ f, pat ≠ [] → compile pat = some f →
      serializeEnvironment compile pat environ = .ok (buildEnvMap (some f) environ) ∧
      (∀ k v, (k, v) ∈ parsedEntries environ →
        (f k = true → buildEnvMap (some f) environ k = none) ∧
        (f k = false → ((parsedEntries environ).map Prod.fst).Nodup →
          buildEnvMap (some f) environ k = some v))) ∧
    (pat = [] →
      serializeEnvironment compile pat environ = .ok (buildEnvMap none environ) ∧
      (∀ k v, (k, v) ∈ parsedEntries environ →
        ((parsedEntries environ).map Prod.fst).Nodup →
        buildEnvMap none environ k = some v)) := by
  refine ⟨?_, ?_, ?_⟩
  · intro hpat hcomp
    simp [serializeEnvironment, hpat, hcomp]
  · intro f hpat hcomp
    refine ⟨by simp [serializeEnvironment, hpat, hcomp], ?_⟩
    intro k v hmem
    constructor
    · intro hf
      have huntouched : ∀ v2, (k, v2) ∈ parsedEntries environ →
          matchedBy (some f) k = true := by
        intro v2 _
        simpa [matchedBy] using hf
      exact foldl_addEnvEntry_untouched (some f) environ k emptyEnvMap huntouched
    · intro hf hnd
      exact foldl_addEnvEntry_present (some f) environ k v emptyEnvMap hnd hmem
        (by simpa [matchedBy] using hf)
  · intro hpat
    subst hpat
    refine ⟨by simp [serializeEnvironment], ?_⟩
    intro k v hmem hnd
    exact foldl_addEnvEntry_present none environ k v emptyEnvMap hnd hmem rfl

/-- C10, witness: with a compiler that accepts only the pattern `"S"` (whose
matcher excludes exactly the name `S`), the environment `S=a, F=b` yields a
map without `S` and with `F` bound to `b`; the pattern `"?"` fails to
compile and produces the error. -/
theorem c10_serialize_environment_witness :
    serializeEnvironment
        (fun p => if p = ['S'] then some (fun key => key = ['S']) else none)
        ['?'] [['S', '=', 'a'], ['F', '=', 'b']]
      = .error "invalid exclude pattern" ∧
    buildEnvMap (some (fun key => key = ['S'])) [['S', '=', 'a'], ['F', '=', 'b']]
        ['S'] = none ∧
    buildEnvMap (some (fun key => key = ['S'])) [['S', '=', 'a'], ['F', '=', 'b']]
        ['F'] = some ['b'] := by
  have h := c10_serialize_environment
    (fun p => if p = ['S'] then some (fun key => key = ['S']) else none)
    ['?'] [['S', '=', 'a'], ['F', '=', 'b']]
  have h2 := c10_serialize_environment
    (fun p => if p = ['S'] then some (fun key => key = ['S']) else none)
    ['S'] [['S', '=', 'a'], ['F', '=', 'b']]
  refine ⟨h.1 (by decide) rfl, ?_, ?_⟩
  · exact ((h2.2.1 (fun key => key = ['S']) (by decide) rfl).2
      ['S'] ['a'] (by decide)).1 (by decide)
  · exact ((h2.2.1 (fun key => key = ['S']) (by decide) rfl).2
      ['F'] ['b'] (by decide)).2 (by decide) (by decide)

end EnclaveBridge
